import Mathlib

set_option linter.unusedVariables false

/-!
Verification development for the Mayo I/O orchestration core
(src/base/io_system.cpp, src/base/messenger.h).

The C++ code is shallowly embedded: bytes are `Nat` (values < 256 in any
realistic input), a `QByteArray` built over a raw buffer is a backing byte
list together with a declared size (reads index the backing buffer, as the
C++ pointer arithmetic does), machine integers are `Nat` with explicit
`% 2 ^ 32` where 32-bit overflow matters, and the external collaborators
(readers, writers, task manager, document) are abstracted by the boolean
results and entity sequences they hand back to the orchestrator.
-/

namespace Mayo

/-- The format enumeration of the source (io_format.h); `Other` keeps the
model extensible, matching the extensibility of the C++ tag set. -/
inductive Format where
  | Unknown
  | STEP
  | IGES
  | OCCBREP
  | STL
  | OBJ
  | Other (tag : Nat)
deriving DecidableEq, Repr

/-- Message levels of messenger.h (`Messenger::MessageType`). -/
inductive MessageType where
  | trace
  | info
  | warning
  | error
deriving DecidableEq, Repr

/-- Model of a `QByteArray` possibly built with `fromRawData`: a backing
buffer of bytes plus the declared size.  C++ reads through `data()` may land
beyond the declared size (the null terminator, or stray memory); the model
reads the backing buffer and yields 0 past its physical end. -/
structure QBA where
  buf : List Nat
  size : Nat
deriving DecidableEq, Repr

/-- A read of `data()[i]`. -/
def QBA.read (q : QBA) (i : Nat) : Nat :=
  q.buf.getD i 0

/-- The declared byte range `[cbegin, cend)` as a list. -/
def QBA.toList (q : QBA) : List Nat :=
  (List.range q.size).map q.read

/-- `std::isspace` in the classic locale, on bytes. -/
def isSpaceB (c : Nat) : Bool :=
  c == 32 || c == 9 || c == 10 || c == 11 || c == 12 || c == 13

/-- `std::isdigit`, on bytes. -/
def isDigitB (c : Nat) : Bool :=
  48 ≤ c && c ≤ 57

/-- Bytes of an ASCII string literal. -/
def strBytes (s : String) : List Nat :=
  s.data.map Char.toNat

/-- `System::FormatProbeInput`: filepath, bounded contents window, exact
file size hint. -/
structure FormatProbeInput where
  filepath : List Nat
  contentsBegin : QBA
  hintFullSize : Nat
deriving DecidableEq, Repr

/-- `findFirstNonSpace` generalised to a start position: the first index
`≥ i` inside the declared range holding a non-space byte, or the end of the
scanned range (`i` itself when `i` is at or past the declared end, matching
the iterator arithmetic of the source). -/
def findFirstNonSpaceFrom (q : QBA) (i : Nat) : Nat :=
  i + ((q.toList.drop i).takeWhile isSpaceB).length

/-- `findFirstNonSpace` of the source (scan from the beginning). -/
def findFirstNonSpace (q : QBA) : Nat :=
  findFirstNonSpaceFrom q 0

/-- `matchToken`: `std::strncmp(&*itBegin, token.data(), token.size()) == 0`.
Tokens contain no zero byte, so strncmp agrees with byte-wise prefix
comparison through `data()`. -/
def matchToken (q : QBA) : Nat → List Nat → Bool
  | _, [] => true
  | pos, t :: ts => q.read pos == t && matchToken q (pos + 1) ts

/-- Accumulating digit parse used by the `std::atoi` model. -/
def digitsVal : List Nat → Int → Int
  | [], acc => acc
  | c :: rest, acc =>
    if isDigitB c then digitsVal rest (acc * 10 + (Int.ofNat c - 48)) else acc

/-- Idealised `std::atoi` applied to a byte sequence: skip classic-locale
whitespace, an optional sign, then a run of digits (stopping at the first
non-digit; the end of the modelled buffer acts as the terminator). -/
def atoiList (l : List Nat) : Int :=
  match l.dropWhile isSpaceB with
  | 43 :: rest => digitsVal rest 0
  | 45 :: rest => - digitsVal rest 0
  | l1 => digitsVal l1 0

/-- `std::atoi(sample.data() + pos)`: parse the backing buffer from `pos`. -/
def atoiAt (q : QBA) (pos : Nat) : Int :=
  atoiList (q.buf.drop pos)

/-- Token `ISO-10303-21`. -/
def stepIsoId : List Nat := strBytes "ISO-10303-21"

/-- Token `HEADER`. -/
def stepHeaderToken : List Nat := strBytes "HEADER"

/-- `probeFormat_STEP` of io_system.cpp. -/
def probeFormat_STEP (input : FormatProbeInput) : Format :=
  let sample := input.contentsBegin
  let p0 := findFirstNonSpace sample
  if matchToken sample p0 stepIsoId then
    let p1 := findFirstNonSpaceFrom sample (p0 + stepIsoId.length)
    if p1 ≠ sample.size ∧ sample.read p1 = 59 then
      let p2 := findFirstNonSpaceFrom sample (p1 + 1)
      if matchToken sample p2 stepHeaderToken then Format.STEP else Format.Unknown
    else Format.Unknown
  else Format.Unknown

/-- Space-or-digit test of the IGES prober loop body. -/
def spaceOrDigit (c : Nat) : Bool :=
  c == 32 || isDigitB c

/-- `probeFormat_IGES` of io_system.cpp: size-80 gate, `S` at column 72,
space-or-digit columns 73..79, terminator byte read at index 80, and an
`atoi` of the sequence-number field that must equal 1. -/
def probeFormat_IGES (input : FormatProbeInput) : Format :=
  let sample := input.contentsBegin
  if 80 ≤ sample.size ∧ sample.read 72 = 83 then
    let isIges := (List.range 7).all (fun k => spaceOrDigit (sample.read (73 + k)))
    let c80 := sample.read 80
    if isIges ∧ (c80 = 10 ∨ c80 = 13 ∨ c80 = 12) then
      if atoiAt sample 73 = 1 then Format.IGES else Format.Unknown
    else Format.Unknown
  else Format.Unknown

/-- Token `DBRep_DrawableShape`. -/
def occBRepToken : List Nat := strBytes "DBRep_DrawableShape"

/-- `probeFormat_OCCBREP` of io_system.cpp. -/
def probeFormat_OCCBREP (input : FormatProbeInput) : Format :=
  if matchToken input.contentsBegin (findFirstNonSpace input.contentsBegin) occBRepToken then
    Format.OCCBREP
  else Format.Unknown

/-- The little-endian 32-bit facet count read at offset 80 by the binary
STL branch. -/
def stlFacetCount (q : QBA) : Nat :=
  q.read 80 + q.read 81 * 256 + q.read 82 * 65536 + q.read 83 * 16777216

/-- The binary branch of `probeFormat_STL`.  The C++ multiplies the facet
count by the facet size 50 in 32-bit unsigned arithmetic (hence the
`% 2 ^ 32`), widens to 64 bits, adds the 84-byte header size, and compares
against the exact file size hint. -/
def stlBinaryCheck (input : FormatProbeInput) : Bool :=
  let sample := input.contentsBegin
  decide (84 ≤ sample.size) &&
    ((50 * stlFacetCount sample) % 2 ^ 32 + 84 == input.hintFullSize)

/-- Token `solid`. -/
def asciiStlToken : List Nat := strBytes "solid"

/-- `probeFormat_STL` of io_system.cpp: binary branch first, then the ASCII
`solid` prefix check. -/
def probeFormat_STL (input : FormatProbeInput) : Format :=
  if stlBinaryCheck input then Format.STL
  else if matchToken input.contentsBegin (findFirstNonSpace input.contentsBegin) asciiStlToken then
    Format.STL
  else Format.Unknown

/-- A fragment of ECMAScript regular expressions, sufficient for the OBJ
probe pattern: byte literals, the start-of-input assertion, single
character classes with optional/star/plus repetition, alternation of
literals, and sequencing. -/
inductive RE where
  | lit (t : List Nat)
  | anchor
  | cls (f : Nat → Bool)
  | clsStar (f : Nat → Bool)
  | clsPlus (f : Nat → Bool)
  | clsOpt (f : Nat → Bool)
  | alts (ts : List (List Nat))
  | seq (a b : RE)

/-- Does the byte literal `t` occur at position `i` of `s` (entirely inside
the searched range, as iterator-range regex matching requires)? -/
def litAt (s : List Nat) (i : Nat) (t : List Nat) : Bool :=
  (s.drop i).take t.length == t

/-- Length of the run of class-`f` bytes starting at position `i`. -/
def runLenFrom (f : Nat → Bool) (s : List Nat) (i : Nat) : Nat :=
  ((s.drop i).takeWhile f).length

/-- All end positions from which the remainder of a match could continue,
for a match of `re` beginning at position `i` of `s`.  Returning every
backtracking possibility makes the set semantics of the matcher equal to
the ECMAScript backtracking semantics for match existence. -/
def RE.matchEnds : RE → List Nat → Nat → List Nat
  | .lit t, s, i => if litAt s i t then [i + t.length] else []
  | .anchor, _, i => if i = 0 then [0] else []
  | .cls f, s, i =>
    match s.get? i with
    | some c => if f c then [i + 1] else []
    | none => []
  | .clsStar f, s, i => (List.range (runLenFrom f s i + 1)).map (i + ·)
  | .clsPlus f, s, i => (List.range (runLenFrom f s i)).map (fun k => i + k + 1)
  | .clsOpt f, s, i =>
    i :: (match s.get? i with
          | some c => if f c then [i + 1] else []
          | none => [])
  | .alts ts, s, i => ts.filterMap (fun t => if litAt s i t then some (i + t.length) else none)
  | .seq a b, s, i => (a.matchEnds s i).flatMap (b.matchEnds s)

/-- `std::regex_search` over a byte range: some start position admits a
match. -/
def regexSearch (r : RE) (s : List Nat) : Bool :=
  (List.range (s.length + 1)).any (fun i => !(r.matchEnds s i).isEmpty)

/-- Class `[-\+]`. -/
def signCls (c : Nat) : Bool :=
  c == 45 || c == 43

/-- Class `[0-9\.]`. -/
def numCls (c : Nat) : Bool :=
  isDigitB c || c == 46

/-- The alternation `(v|vt|vn|vp|surf)`. -/
def objDirectives : List (List Nat) :=
  [strBytes "v", strBytes "vt", strBytes "vn", strBytes "vp", strBytes "surf"]

/-- The pattern actually compiled by `probeFormat_OBJ`.  The raw string
literal of the source places a double-quote byte before the caret and
another after the trailing space class, so the compiled pattern is
literally quote, caret, whitespace-star, directive, whitespace-plus,
optional sign, number-plus, whitespace, quote. -/
def objRegexActual : RE :=
  .seq (.lit [34])
    (.seq .anchor
      (.seq (.clsStar isSpaceB)
        (.seq (.alts objDirectives)
          (.seq (.clsPlus isSpaceB)
            (.seq (.clsOpt signCls)
              (.seq (.clsPlus numCls)
                (.seq (.cls isSpaceB) (.lit [34]))))))))

/-- Modelled from the spec: the OBJ pattern the source evidently intends
(its comment-level pattern without the stray embedded quote characters):
a line beginning, after leading whitespace, with one of the directives
`v`, `vt`, `vn`, `vp`, `surf`, then whitespace, an optional sign, a run of
digits or dots, and a trailing whitespace byte. -/
def objRegexIntended : RE :=
  .seq .anchor
    (.seq (.clsStar isSpaceB)
      (.seq (.alts objDirectives)
        (.seq (.clsPlus isSpaceB)
          (.seq (.clsOpt signCls)
            (.seq (.clsPlus numCls) (.cls isSpaceB))))))

/-- `probeFormat_OBJ` of io_system.cpp: run `regex_search` with the
compiled pattern over the declared contents range. -/
def probeFormat_OBJ (input : FormatProbeInput) : Format :=
  if regexSearch objRegexActual input.contentsBegin.toList then Format.OBJ
  else Format.Unknown

/-- The probing buffer: a 2048-byte window, zero-filled, holding the first
bytes of the file (`buff.fill(0); file.read(buff.data(), buff.size())`). -/
def pad2048 (l : List Nat) : List Nat :=
  l.take 2048 ++ List.replicate (2048 - l.length) 0

/-- The `FormatProbeInput` built by `System::probeFormat`: the zero-filled
2048-byte prefix wrapped by `QByteArray::fromRawData` (declared size 2048)
and the exact on-disk size from `std::filesystem::file_size`. -/
def mkProbeInput (path : List Nat) (bytes : List Nat) (size : Nat) : FormatProbeInput :=
  { filepath := path, contentsBegin := ⟨pad2048 bytes, 2048⟩, hintFullSize := size }

/-- The prober loop of `System::probeFormat`: first non-Unknown answer in
registration order, Unknown when none answers. -/
def runProbes : List (FormatProbeInput → Format) → FormatProbeInput → Format
  | [], _ => Format.Unknown
  | p :: ps, inp => if p inp = Format.Unknown then runProbes ps inp else p inp

/-- Drop the leading dot of `filepath.extension().u8string()`. -/
def stripLeadingDot (s : List Nat) : List Nat :=
  match s with
  | 46 :: rest => rest
  | _ => s

/-- `std::tolower` in the classic locale, on bytes. -/
def toLowerClassic (c : Nat) : Nat :=
  if 65 ≤ c ∧ c ≤ 90 then c + 32 else c

/-- `fnCharIEqual` of `System::probeFormat`. -/
def charIEqual (a b : Nat) : Bool :=
  toLowerClassic a == toLowerClassic b

/-- `fnMatchFileSuffix` of `System::probeFormat`: some canonical suffix of
the format has the same length as the file suffix and is equal to it under
`fnCharIEqual`. -/
def fnMatchFileSuffix (suffixes : Format → List (List Nat)) (fileSuffix : List Nat)
    (fmt : Format) : Bool :=
  (suffixes fmt).any (fun cand =>
    cand.length == fileSuffix.length &&
      (cand.zip fileSuffix).all (fun p => charIEqual p.1 p.2))

/-- What the probing environment of one `probeFormat` call supplies: the
extension component of the path, and, when the file opens, the bytes read
into the window plus the exact file size. -/
structure ProbeFileEnv where
  extension : List Nat
  opened : Option (List Nat × Nat)
deriving Repr

/-- `System::probeFormat`: run the registered probers on the probe input
when the file opens; on Unknown (or an unopened file) fall back to
case-insensitive suffix matching over known reader formats then known
writer formats.  `probes`, `readerFormats` and `writerFormats` are the
registry state; `suffixes` is `formatFileSuffixes` of io_format. -/
def probeFormat (probes : List (FormatProbeInput → Format))
    (readerFormats writerFormats : List Format)
    (suffixes : Format → List (List Nat))
    (path : List Nat) (env : ProbeFileEnv) : Format :=
  let probed :=
    match env.opened with
    | some (bytes, size) => runProbes probes (mkProbeInput path bytes size)
    | none => Format.Unknown
  if probed ≠ Format.Unknown then probed
  else
    let fileSuffix := stripLeadingDot env.extension
    match readerFormats.find? (fnMatchFileSuffix suffixes fileSuffix) with
    | some f => f
    | none =>
      match writerFormats.find? (fnMatchFileSuffix suffixes fileSuffix) with
      | some f => f
      | none => Format.Unknown

/-- A registered factory: its pointer identity and the formats it
advertises (`FactoryReader::formats` / `FactoryWriter::formats`). -/
structure Factory where
  fid : Nat
  formats : List Format
deriving DecidableEq, Repr

/-- `containsFormat` of io_system.cpp. -/
def containsFormat (spanFormat : List Format) (format : Format) : Bool :=
  spanFormat.contains format

/-- The registry state of `System`: reader and writer factory vectors and
the derived known-format vectors. -/
structure Registry where
  factoryReaders : List Factory
  factoryWriters : List Factory
  readerFormats : List Format
  writerFormats : List Format
deriving DecidableEq, Repr

/-- The empty registry. -/
def emptyRegistry : Registry :=
  ⟨[], [], [], []⟩

/-- The per-format step of the registration loop: append the format to the
known-format vector when absent. -/
def addFormatIfAbsent (l : List Format) (f : Format) : List Format :=
  if l.contains f then l else l ++ [f]

/-- `System::addFactoryReader`: ignore a null or pointer-equal duplicate
factory; otherwise record each advertised format once and append the
factory. -/
def addFactoryReader (st : Registry) (ptr : Option Factory) : Registry :=
  match ptr with
  | none => st
  | some fac =>
    if st.factoryReaders.any (fun g => g.fid == fac.fid) then st
    else
      { st with
        readerFormats := fac.formats.foldl addFormatIfAbsent st.readerFormats
        factoryReaders := st.factoryReaders ++ [fac] }

/-- `System::addFactoryWriter`, symmetric to the reader variant. -/
def addFactoryWriter (st : Registry) (ptr : Option Factory) : Registry :=
  match ptr with
  | none => st
  | some fac =>
    if st.factoryWriters.any (fun g => g.fid == fac.fid) then st
    else
      { st with
        writerFormats := fac.formats.foldl addFormatIfAbsent st.writerFormats
        factoryWriters := st.factoryWriters ++ [fac] }

/-- `System::findFactoryReader`: first registered reader factory
advertising the format, null when none does. -/
def findFactoryReader (st : Registry) (format : Format) : Option Factory :=
  st.factoryReaders.find? (fun fac => containsFormat fac.formats format)

/-- `System::findFactoryWriter`. -/
def findFactoryWriter (st : Registry) (format : Format) : Option Factory :=
  st.factoryWriters.find? (fun fac => containsFormat fac.formats format)

/-- One registry mutation, for quantifying over call sequences. -/
inductive RegOp where
  | addReader (ptr : Option Factory)
  | addWriter (ptr : Option Factory)

/-- Apply one registry mutation. -/
def applyRegOp (st : Registry) : RegOp → Registry
  | .addReader ptr => addFactoryReader st ptr
  | .addWriter ptr => addFactoryWriter st ptr

/-- Apply a sequence of registry mutations in order. -/
def applyRegOps (st : Registry) (ops : List RegOp) : Registry :=
  ops.foldl applyRegOp st

/-- A messenger pointer: `none` is a null pointer, `some 0` is the
`NullMessenger::instance()` singleton, `some (k+1)` a caller-supplied
messenger. -/
def nullMessengerPtr : Option Nat :=
  some 0

/-- An error message routed through `fnAddError` of `importInDocument`:
level, filepath, and the reason inserted into the
`Error during import` template. -/
structure ImportMessage where
  level : MessageType
  path : List Nat
  reason : String
deriving DecidableEq, Repr

/-- The collaborator behaviour one imported file meets: the probed format,
whether `createReader` yields a reader, what `readFile` returns, and the
entity sequence `transfer` yields.  These abstract the external reader
the orchestrator drives. -/
structure ImportFile where
  path : List Nat
  probed : Format
  readerCreated : Bool
  readFileOk : Bool
  entities : List Nat
deriving DecidableEq, Repr

/-- `fnReadFile` of `importInDocument`: probe, create the reader, read;
each failure reports through `fnAddError` (an Error-level message) and
stops this file.  Returns the read-stage success with the emitted
messages. -/
def fnReadFile (f : ImportFile) : Bool × List ImportMessage :=
  if f.probed = Format.Unknown then (false, [⟨.error, f.path, "Unknown format"⟩])
  else if !f.readerCreated then (false, [⟨.error, f.path, "No supporting reader"⟩])
  else if !f.readFileOk then (false, [⟨.error, f.path, "File read problem"⟩])
  else (true, [])

/-- `fnTransfer` of `importInDocument`, reached only for a file whose read
stage succeeded (so the reader exists): run `transfer`, and report an
Error-level message when the transferred entity sequence is empty. -/
def fnTransfer (f : ImportFile) : List Nat × List ImportMessage :=
  (f.entities,
    if f.entities.isEmpty then [⟨.error, f.path, "File transfer problem"⟩] else [])

/-- The outcome of one `importInDocument` call: the boolean return, the
messages the messenger received, and the entities attached to the document
tree. -/
structure ImportOutcome where
  ok : Bool
  messages : List ImportMessage
  attached : List Nat
deriving DecidableEq, Repr

/-- Read, transfer, attach for one file: the per-file body shared by the
single-file path and the drain loop of the many-files path. -/
def processFile (f : ImportFile) : Bool × List ImportMessage × List Nat :=
  let (readOk, readMsgs) := fnReadFile f
  if readOk then
    let (ents, transferMsgs) := fnTransfer f
    (transferMsgs.isEmpty, readMsgs ++ transferMsgs, ents)
  else (false, readMsgs, [])

/-- One `TaskData` record of the many-files path: the file it stands for,
the recorded `readSuccess`, and the `transferred` flag — which only
`fnTransfer` sets, and `fnTransfer` runs only when the read succeeded. -/
structure DrainTask where
  file : ImportFile
  readSuccess : Bool
  transferred : Bool
deriving DecidableEq, Repr

/-- The `std::find_if` of the drain loop: split the task vector at the
first task not yet transferred.  `waitForDone` is abstracted as reporting
done (all read tasks have completed), so vector order alone selects the
candidate. -/
def splitAtFirstNonTransferred :
    List DrainTask → Option (List DrainTask × DrainTask × List DrainTask)
  | [] => none
  | t :: ts =>
    if t.transferred then
      match splitAtFirstNonTransferred ts with
      | none => none
      | some (pre, u, post) => some (t :: pre, u, post)
    else some ([], t, ts)

/-- The drain loop of the many-files path.  The fuel is `taskDataCount`:
each iteration that finds a candidate decrements it.  When the candidate
read succeeded, `fnTransfer` runs (emitting its error on an empty entity
sequence), the entities are attached, and the task is marked transferred;
when the read failed nothing marks the task, so every later iteration
finds the same task again until the counter is exhausted.  Cooperative
cancellation is omitted (no abort requested). -/
def drainLoop : Nat → List DrainTask → List ImportMessage × List Nat × List DrainTask
  | 0, ts => ([], [], ts)
  | count + 1, ts =>
    match splitAtFirstNonTransferred ts with
    | none => ([], [], ts)
    | some (pre, t, post) =>
      if t.readSuccess then
        let (ents, msgs) := fnTransfer t.file
        let (msgs2, ents2, ts2) :=
          drainLoop count (pre ++ ({ t with transferred := true } :: post))
        (msgs ++ msgs2, ents ++ ents2, ts2)
      else
        let (msgs2, ents2, ts2) := drainLoop count ts
        (msgs2, ents2, ts2)

/-- The many-files path of `System::importInDocument`: every read task
runs (concurrently in the C++; abstracted to task order, all completing,
read errors reported first), then the drain loop runs with
`taskDataCount` = number of files.  `ok` starts true and every
`fnAddError` call clears it, so it is true exactly when no error message
was emitted. -/
def importManyFiles (files : List ImportFile) : ImportOutcome :=
  let readMsgs := files.flatMap (fun f => (fnReadFile f).2)
  let tasks : List DrainTask := files.map (fun f => ⟨f, (fnReadFile f).1, false⟩)
  let (drainMsgs, attached, _) := drainLoop files.length tasks
  ⟨readMsgs.isEmpty && drainMsgs.isEmpty, readMsgs ++ drainMsgs, attached⟩

/-- `System::importInDocument`: the single-file path reads, transfers,
post-processes and attaches on the calling thread; any other list size
takes the many-files task path. -/
def importInDocument : List ImportFile → ImportOutcome
  | [f] =>
    let (success, msgs, ents) := processFile f
    ⟨success, msgs, ents⟩
  | files => importManyFiles files

/-- Per-file success of an import, as the specification states it: known
format, a supporting reader, a successful read, and a non-empty
transferred entity sequence. -/
def fileSuccess (f : ImportFile) : Bool :=
  !(f.probed == Format.Unknown) && f.readerCreated && f.readFileOk && !f.entities.isEmpty

/-- The collaborator behaviour of one export: whether `createWriter` yields
a writer and what its `transfer` and `writeFile` return. -/
structure ExportWriter where
  transferOk : Bool
  writeOk : Bool
deriving DecidableEq, Repr

/-- `Args_ExportApplicationItems`, restricted to what the orchestrator
consults: the caller-supplied messenger pointer and the writer the
registry produces for the target format. -/
structure ExportArgs where
  messenger : Option Nat
  createdWriter : Option ExportWriter
deriving DecidableEq, Repr

/-- Observable actions of `exportApplicationItems`, in program order. -/
inductive ExportEvent where
  | setMessenger (m : Option Nat)
  | applyProperties
  | transferCalled
  | writeCalled
  | errorEmitted (via : Option Nat) (reason : String)
deriving DecidableEq, Repr

/-- `System::exportApplicationItems`: substitute the null messenger for
error reporting, create the writer (failing with `No supporting writer`),
install `args.messenger` into the writer (the raw argument, exactly as the
source does), apply properties, transfer, then write; each failure emits
its reason through the substituted messenger and returns false at once. -/
def exportApplicationItems (args : ExportArgs) : Bool × List ExportEvent :=
  let messenger := match args.messenger with
    | some m => some m
    | none => nullMessengerPtr
  match args.createdWriter with
  | none => (false, [.errorEmitted messenger "No supporting writer"])
  | some w =>
    let prologue : List ExportEvent := [.setMessenger args.messenger, .applyProperties]
    if w.transferOk then
      if w.writeOk then (true, prologue ++ [.transferCalled, .writeCalled])
      else
        (false, prologue ++
          [.transferCalled, .writeCalled, .errorEmitted messenger "File write problem"])
    else
      (false, prologue ++ [.transferCalled, .errorEmitted messenger "File transfer problem"])

theorem processFile_fst (f : ImportFile) : (processFile f).1 = fileSuccess f := by
  unfold processFile fnReadFile fnTransfer fileSuccess
  by_cases h1 : f.probed = Format.Unknown <;>
    simp [h1] <;>
    cases h2 : f.readerCreated <;>
      cases h3 : f.readFileOk <;>
        simp [h1, h2, h3] <;>
        cases h4 : f.entities <;> simp [h1, h2, h3, h4]

theorem processFile_attached (f : ImportFile) :
    (processFile f).2.2 = if fileSuccess f = true then f.entities else [] := by
  unfold processFile fnReadFile fnTransfer fileSuccess
  by_cases h1 : f.probed = Format.Unknown <;>
    simp [h1] <;>
    cases h2 : f.readerCreated <;>
      cases h3 : f.readFileOk <;>
        simp [h1, h2, h3] <;>
        cases h4 : f.entities <;> simp [h1, h2, h3, h4]

theorem processFile_msgs_error (f : ImportFile) :
    ∀ m ∈ (processFile f).2.1, m.level = MessageType.error := by
  unfold processFile fnReadFile fnTransfer
  by_cases h1 : f.probed = Format.Unknown <;>
    simp [h1] <;>
    cases h2 : f.readerCreated <;>
      cases h3 : f.readFileOk <;>
        simp [h1, h2, h3] <;>
        cases h4 : f.entities <;> simp [h1, h2, h3, h4]

theorem processFile_failure_reported (f : ImportFile) (hf : fileSuccess f = false) :
    ∃ r, (⟨MessageType.error, f.path, r⟩ : ImportMessage) ∈ (processFile f).2.1 := by
  unfold processFile fnReadFile fnTransfer
  unfold fileSuccess at hf
  by_cases h1 : f.probed = Format.Unknown
  · exact ⟨"Unknown format", by simp [h1]⟩
  · cases h2 : f.readerCreated
    · exact ⟨"No supporting reader", by simp [h1, h2]⟩
    · cases h3 : f.readFileOk
      · exact ⟨"File read problem", by simp [h1, h2, h3]⟩
      · cases h4 : f.entities
        · exact ⟨"File transfer problem", by simp [h1, h2, h3, h4]⟩
        · simp [h1, h2, h3, h4] at hf

/-- A three-file import where the middle file has an unknown format
(scenario 6 of the specification). -/
def exImportFiles : List ImportFile :=
  [⟨strBytes "good.step", Format.STEP, true, true, [1, 2]⟩,
   ⟨strBytes "bad.xyz", Format.Unknown, false, false, []⟩,
   ⟨strBytes "good2.step", Format.STEP, true, true, [3]⟩]

/-- C1 (code bug evidence): importing `[good.step, bad.xyz, good2.step]`
where `bad.xyz` has an unknown format, the failure is reported at Error
level and the return value is false — but because the drain loop marks a
task transferred only inside `fnTransfer`, which runs only when the read
succeeded, the failed-read task is re-selected by `find_if` on every later
iteration until `taskDataCount` is exhausted, and `good2.step` — read
successfully, with a non-empty entity sequence — is never transferred or
attached.  The claim (and the specification, which marks every drained
task transferred and promises that other files continue) requires the
attached entities to be `[1, 2, 3]`; the code attaches `[1, 2]`. -/
theorem importInDocument_starves_after_failed_read :
    (importInDocument exImportFiles).ok = false ∧
    (⟨MessageType.error, strBytes "bad.xyz", "Unknown format"⟩ : ImportMessage) ∈
      (importInDocument exImportFiles).messages ∧
    (importInDocument exImportFiles).attached = [1, 2] ∧
    fileSuccess ⟨strBytes "good2.step", Format.STEP, true, true, [3]⟩ = true ∧
    (exImportFiles.filter fileSuccess).flatMap (fun f => f.entities) = [1, 2, 3] := by
  decide

/-- The error reasons an export run emitted, in order. -/
def errorReasons (evs : List ExportEvent) : List String :=
  evs.filterMap (fun e =>
    match e with
    | .errorEmitted _ r => some r
    | _ => none)

/-- C9: `exportApplicationItems` returns true exactly when a writer exists
for the target format and both `transfer` and `writeFile` succeed; each of
the three failures emits exactly its reason (`No supporting writer`,
`File transfer problem`, `File write problem`), aborts the pipeline at that
stage — in particular `writeFile` is never invoked when `transfer` fails —
and yields false. -/
theorem exportApplicationItems_pipeline (args : ExportArgs) :
    ((exportApplicationItems args).1 = true ↔
      ∃ w, args.createdWriter = some w ∧ w.transferOk = true ∧ w.writeOk = true) ∧
    (errorReasons (exportApplicationItems args).2 =
      match args.createdWriter with
      | none => ["No supporting writer"]
      | some w =>
        if w.transferOk then (if w.writeOk then [] else ["File write problem"])
        else ["File transfer problem"]) ∧
    ((∃ w, args.createdWriter = some w ∧ w.transferOk = false) →
      ExportEvent.writeCalled ∉ (exportApplicationItems args).2) := by
  rcases args with ⟨msg, writer⟩
  rcases writer with _ | ⟨t, wr⟩ <;>
    [skip; (cases t <;> cases wr)] <;>
      cases msg <;>
        simp [exportApplicationItems, errorReasons, nullMessengerPtr]

/-- Witness for C9: a writer whose transfer fails makes the export return
false without ever calling `writeFile`. -/
theorem exportApplicationItems_pipeline_witness :
    (exportApplicationItems ⟨none, some ⟨false, true⟩⟩).1 = false ∧
    ExportEvent.writeCalled ∉ (exportApplicationItems ⟨none, some ⟨false, true⟩⟩).2 := by
  have h := exportApplicationItems_pipeline ⟨none, some ⟨false, true⟩⟩
  exact ⟨by decide, h.2.2 ⟨⟨false, true⟩, rfl, rfl⟩⟩

/-- C10 (code bug evidence): in `exportApplicationItems` with no
caller-supplied messenger, the messenger installed into the writer through
`setMessenger` is the raw null pointer `args.messenger`, not the
process-wide null messenger singleton — even though the error-reporting
path of the very same function does substitute the singleton. -/
theorem export_setMessenger_gets_null_pointer :
    ExportEvent.setMessenger none ∈ (exportApplicationItems ⟨none, some ⟨false, true⟩⟩).2 ∧
    (none : Option Nat) ≠ nullMessengerPtr ∧
    ExportEvent.errorEmitted nullMessengerPtr "File transfer problem" ∈
      (exportApplicationItems ⟨none, some ⟨false, true⟩⟩).2 := by
  decide

theorem addFactoryReader_readers (st : Registry) (fac : Factory) :
    (addFactoryReader st (some fac)).factoryReaders =
      if (st.factoryReaders.any fun g => g.fid == fac.fid) = true then st.factoryReaders
      else st.factoryReaders ++ [fac] := by
  simp only [addFactoryReader]
  split <;> rfl

theorem find?_eq_some_split {α : Type} (p : α → Bool) (l : List α) (a : α)
    (h : l.find? p = some a) :
    ∃ l1 l2, l = l1 ++ a :: l2 ∧ (∀ x ∈ l1, p x = false) ∧ p a = true := by
  induction l with
  | nil => simp [List.find?] at h
  | cons x xs ih =>
    rw [List.find?_cons] at h
    cases hp : p x with
    | true =>
      rw [hp] at h
      simp only [Option.some.injEq] at h
      subst h
      exact ⟨[], xs, rfl, by simp, hp⟩
    | false =>
      rw [hp] at h
      obtain ⟨l1, l2, heq, hall, ha⟩ := ih h
      exact ⟨x :: l1, l2, by rw [heq]; rfl, by
        intro y hy
        rcases List.mem_cons.mp hy with h' | h'
        · exact h' ▸ hp
        · exact hall y h', ha⟩

/-- C7: for every format and registry state, `findFactoryReader` and
`findFactoryWriter` return the earliest-registered factory advertising the
format and null when no factory advertises it; in particular, registering
two factories F1 then F2 that both advertise the format, into a state where
no factory yet advertises it, makes `findFactoryReader` answer F1. -/
theorem findFactory_first_match (st : Registry) (F : Format)
    (st0 : Registry) (f1 f2 : Factory) :
    (findFactoryReader st F = none ↔
      ∀ fac ∈ st.factoryReaders, containsFormat fac.formats F = false) ∧
    (∀ fac, findFactoryReader st F = some fac →
      ∃ l1 l2, st.factoryReaders = l1 ++ fac :: l2 ∧
        (∀ g ∈ l1, containsFormat g.formats F = false) ∧
        containsFormat fac.formats F = true) ∧
    (findFactoryWriter st F = none ↔
      ∀ fac ∈ st.factoryWriters, containsFormat fac.formats F = false) ∧
    (∀ fac, findFactoryWriter st F = some fac →
      ∃ l1 l2, st.factoryWriters = l1 ++ fac :: l2 ∧
        (∀ g ∈ l1, containsFormat g.formats F = false) ∧
        containsFormat fac.formats F = true) ∧
    ((∀ fac ∈ st0.factoryReaders, containsFormat fac.formats F = false) →
      (∀ fac ∈ st0.factoryReaders, fac.fid ≠ f1.fid) →
      containsFormat f1.formats F = true →
      findFactoryReader (addFactoryReader (addFactoryReader st0 (some f1)) (some f2)) F =
        some f1) := by
  refine ⟨?_, ?_, ?_, ?_, ?_⟩
  · rw [findFactoryReader, List.find?_eq_none]
    simp
  · intro fac h
    exact find?_eq_some_split _ _ _ h
  · rw [findFactoryWriter, List.find?_eq_none]
    simp
  · intro fac h
    exact find?_eq_some_split _ _ _ h
  · intro hnone hfresh hf1
    have hany : (st0.factoryReaders.any fun g => g.fid == f1.fid) = false := by
      rw [List.any_eq_false]
      intro g hg
      simp [hfresh g hg]
    have h1 : (addFactoryReader st0 (some f1)).factoryReaders =
        st0.factoryReaders ++ [f1] := by
      rw [addFactoryReader_readers, hany]
      simp
    have hfindnone : st0.factoryReaders.find? (fun fac => containsFormat fac.formats F) =
        none := by
      rw [List.find?_eq_none]
      intro g hg
      simp [hnone g hg]
    have hfind1 : (st0.factoryReaders ++ [f1]).find?
        (fun fac => containsFormat fac.formats F) = some f1 := by
      rw [List.find?_append, hfindnone]
      simp [List.find?, hf1]
    unfold findFactoryReader
    rw [addFactoryReader_readers, h1]
    split
    · exact hfind1
    · rw [List.find?_append, hfind1]
      rfl

/-- Witness for C7: in an initially empty registry, with factories 1 then 2
both advertising STEP, the reader lookup returns factory 1. -/
theorem findFactory_first_match_witness :
    findFactoryReader
      (addFactoryReader (addFactoryReader emptyRegistry (some ⟨1, [Format.STEP]⟩))
        (some ⟨2, [Format.STEP]⟩)) Format.STEP = some ⟨1, [Format.STEP]⟩ :=
  (findFactory_first_match emptyRegistry Format.STEP emptyRegistry
      ⟨1, [Format.STEP]⟩ ⟨2, [Format.STEP]⟩).2.2.2.2
    (by decide) (by decide) (by decide)

theorem addFactoryWriter_writers (st : Registry) (fac : Factory) :
    (addFactoryWriter st (some fac)).factoryWriters =
      if (st.factoryWriters.any fun g => g.fid == fac.fid) = true then st.factoryWriters
      else st.factoryWriters ++ [fac] := by
  simp only [addFactoryWriter]
  split <;> rfl

theorem addFactoryReader_dup (st : Registry) (fac : Factory)
    (h : (st.factoryReaders.any fun g => g.fid == fac.fid) = true) :
    addFactoryReader st (some fac) = st := by
  simp only [addFactoryReader, h]
  rfl

theorem addFactoryWriter_dup (st : Registry) (fac : Factory)
    (h : (st.factoryWriters.any fun g => g.fid == fac.fid) = true) :
    addFactoryWriter st (some fac) = st := by
  simp only [addFactoryWriter, h]
  rfl

theorem addFactoryReader_idem (st : Registry) (fac : Factory) :
    addFactoryReader (addFactoryReader st (some fac)) (some fac) =
      addFactoryReader st (some fac) := by
  apply addFactoryReader_dup
  rw [addFactoryReader_readers]
  split
  · assumption
  · simp

theorem addFactoryWriter_idem (st : Registry) (fac : Factory) :
    addFactoryWriter (addFactoryWriter st (some fac)) (some fac) =
      addFactoryWriter st (some fac) := by
  apply addFactoryWriter_dup
  rw [addFactoryWriter_writers]
  split
  · assumption
  · simp

theorem addFormatIfAbsent_nodup (l : List Format) (f : Format) (h : l.Nodup) :
    (addFormatIfAbsent l f).Nodup := by
  unfold addFormatIfAbsent
  split
  · exact h
  · rename_i hc
    rw [List.nodup_append]
    refine ⟨h, List.nodup_singleton f, ?_⟩
    intro x hx hx1
    rw [List.mem_singleton] at hx1
    subst hx1
    exact hc (by simpa using hx)

theorem foldl_addFormatIfAbsent_nodup (fs : List Format) (l : List Format)
    (h : l.Nodup) : (fs.foldl addFormatIfAbsent l).Nodup := by
  induction fs generalizing l with
  | nil => exact h
  | cons f fs ih => exact ih _ (addFormatIfAbsent_nodup l f h)

theorem applyRegOp_nodup (st : Registry) (op : RegOp)
    (h1 : st.readerFormats.Nodup) (h2 : st.writerFormats.Nodup) :
    (applyRegOp st op).readerFormats.Nodup ∧ (applyRegOp st op).writerFormats.Nodup := by
  cases op with
  | addReader ptr =>
    cases ptr with
    | none => exact ⟨h1, h2⟩
    | some fac =>
      simp only [applyRegOp, addFactoryReader]
      split
      · exact ⟨h1, h2⟩
      · exact ⟨foldl_addFormatIfAbsent_nodup fac.formats st.readerFormats h1, h2⟩
  | addWriter ptr =>
    cases ptr with
    | none => exact ⟨h1, h2⟩
    | some fac =>
      simp only [applyRegOp, addFactoryWriter]
      split
      · exact ⟨h1, h2⟩
      · exact ⟨h1, foldl_addFormatIfAbsent_nodup fac.formats st.writerFormats h2⟩

theorem applyRegOps_nodup (ops : List RegOp) (st : Registry)
    (h1 : st.readerFormats.Nodup) (h2 : st.writerFormats.Nodup) :
    (applyRegOps st ops).readerFormats.Nodup ∧
      (applyRegOps st ops).writerFormats.Nodup := by
  induction ops generalizing st with
  | nil => exact ⟨h1, h2⟩
  | cons op ops ih =>
    obtain ⟨g1, g2⟩ := applyRegOp_nodup st op h1 h2
    exact ih (applyRegOp st op) g1 g2

/-- C8: after every sequence of `addFactoryReader` / `addFactoryWriter`
calls, registering a null factory or a pointer-equal already-registered
factory leaves the registry unchanged (so registering the same factory
twice equals registering it once), and each format appears at most once
in the known-reader-format and known-writer-format lists. -/
theorem registry_registration_invariants (ops : List RegOp) (fac : Factory) :
    addFactoryReader (applyRegOps emptyRegistry ops) none = applyRegOps emptyRegistry ops ∧
    addFactoryWriter (applyRegOps emptyRegistry ops) none = applyRegOps emptyRegistry ops ∧
    (((applyRegOps emptyRegistry ops).factoryReaders.any fun g => g.fid == fac.fid) = true →
      addFactoryReader (applyRegOps emptyRegistry ops) (some fac) =
        applyRegOps emptyRegistry ops) ∧
    (((applyRegOps emptyRegistry ops).factoryWriters.any fun g => g.fid == fac.fid) = true →
      addFactoryWriter (applyRegOps emptyRegistry ops) (some fac) =
        applyRegOps emptyRegistry ops) ∧
    addFactoryReader (addFactoryReader (applyRegOps emptyRegistry ops) (some fac)) (some fac) =
      addFactoryReader (applyRegOps emptyRegistry ops) (some fac) ∧
    addFactoryWriter (addFactoryWriter (applyRegOps emptyRegistry ops) (some fac)) (some fac) =
      addFactoryWriter (applyRegOps emptyRegistry ops) (some fac) ∧
    (applyRegOps emptyRegistry ops).readerFormats.Nodup ∧
    (applyRegOps emptyRegistry ops).writerFormats.Nodup := by
  obtain ⟨hn1, hn2⟩ :=
    applyRegOps_nodup ops emptyRegistry List.nodup_nil List.nodup_nil
  exact ⟨rfl, rfl,
    addFactoryReader_dup _ fac,
    addFactoryWriter_dup _ fac,
    addFactoryReader_idem _ fac,
    addFactoryWriter_idem _ fac,
    hn1, hn2⟩

/-- Witness for C8: register a STEP/STL reader factory twice and a null
writer factory into an empty registry; the duplicate and the null are
ignored, and the format lists hold each format once. -/
theorem registry_registration_invariants_witness :
    addFactoryReader
        (applyRegOps emptyRegistry [.addReader (some ⟨7, [Format.STEP, Format.STL]⟩)])
        (some ⟨7, [Format.STEP, Format.STL]⟩) =
      applyRegOps emptyRegistry [.addReader (some ⟨7, [Format.STEP, Format.STL]⟩)] ∧
    (applyRegOps emptyRegistry
      [.addReader (some ⟨7, [Format.STEP, Format.STL]⟩)]).readerFormats.Nodup := by
  have h := registry_registration_invariants
    [.addReader (some ⟨7, [Format.STEP, Format.STL]⟩)] ⟨7, [Format.STEP, Format.STL]⟩
  exact ⟨h.2.2.1 (by decide), h.2.2.2.2.2.2.1⟩

/-- A probe input whose 32-bit facet count makes the 32-bit product
`50 * facet_count` wrap to 0: 84 prefix bytes, facet bytes `00 00 00 80`
(little-endian 2147483648), full size 84. -/
def exStlOverflow : FormatProbeInput :=
  ⟨[], ⟨List.replicate 80 65 ++ [0, 0, 0, 128], 84⟩, 84⟩

/-- Counterexample to C3 as stated: this input is classified as binary STL
by `probeFormat_STL` although its full size differs from the exact product
`84 + 50 * facet_count` (the 32-bit multiplication overflows). -/
theorem probeFormat_STL_overflow_counterexample :
    probeFormat_STL exStlOverflow = Format.STL ∧
    stlBinaryCheck exStlOverflow = true ∧
    84 + 50 * stlFacetCount exStlOverflow.contentsBegin ≠ exStlOverflow.hintFullSize := by
  decide

/-- C3 amended: the binary branch accepts exactly when the prefix holds at
least 84 bytes and `84 + ((50 * facet_count) mod 2^32)` equals the full
size hint; whenever the 32-bit product `50 * facet_count` does not
overflow, this is precisely the exact equation
`84 + 50 * facet_count = hint_full_size` of the claim. -/
theorem stlBinaryCheck_characterization (input : FormatProbeInput) :
    (stlBinaryCheck input = true ↔
      84 ≤ input.contentsBegin.size ∧
        84 + (50 * stlFacetCount input.contentsBegin) % 2 ^ 32 = input.hintFullSize) ∧
    (50 * stlFacetCount input.contentsBegin < 2 ^ 32 →
      (stlBinaryCheck input = true ↔
        84 ≤ input.contentsBegin.size ∧
          84 + 50 * stlFacetCount input.contentsBegin = input.hintFullSize)) := by
  constructor
  · unfold stlBinaryCheck
    simp [Nat.add_comm]
  · intro hov
    unfold stlBinaryCheck
    simp only [Nat.mod_eq_of_lt hov]
    simp [Nat.add_comm]

/-- A well-formed binary STL probe input (scenario 3 of the specification):
facet bytes `04 00 00 00`, full size 284 = 84 + 50 * 4. -/
def exStlBinary : FormatProbeInput :=
  ⟨[], ⟨List.replicate 80 65 ++ [4, 0, 0, 0], 84⟩, 284⟩

/-- Witness for the amended C3: with facet count 4 and size 284 the binary
branch accepts, through the overflow-free reading of the check. -/
theorem stlBinaryCheck_characterization_witness :
    stlBinaryCheck exStlBinary = true :=
  ((stlBinaryCheck_characterization exStlBinary).2 (by decide)).mpr ⟨by decide, by decide⟩

theorem range7_all_iff (q : QBA) :
    ((List.range 7).all fun k => spaceOrDigit (q.read (73 + k))) = true ↔
      ∀ i, 73 ≤ i → i < 80 → spaceOrDigit (q.read i) = true := by
  rw [List.all_eq_true]
  constructor
  · intro h i h1 h2
    have hk := h (i - 73) (by rw [List.mem_range]; omega)
    rwa [Nat.add_sub_cancel' h1] at hk
  · intro h k hk
    rw [List.mem_range] at hk
    exact h (73 + k) (by omega) (by omega)

/-- C5: `probeFormat_IGES` answers IGES exactly when the declared prefix is
at least 80 bytes, the byte at offset 72 is `S`, the bytes at offsets
73..79 are spaces or digits, the byte read at offset 80 is one of newline,
carriage return or form feed, and the `atoi` parse starting at offset 73
yields 1; on any other input it answers Unknown. -/
theorem probeFormat_IGES_characterization (input : FormatProbeInput) :
    probeFormat_IGES input = Format.IGES ↔
      80 ≤ input.contentsBegin.size ∧
      input.contentsBegin.read 72 = 83 ∧
      (∀ i, 73 ≤ i → i < 80 → spaceOrDigit (input.contentsBegin.read i) = true) ∧
      (input.contentsBegin.read 80 = 10 ∨ input.contentsBegin.read 80 = 13 ∨
        input.contentsBegin.read 80 = 12) ∧
      atoiAt input.contentsBegin 73 = 1 := by
  simp only [probeFormat_IGES]
  split_ifs with hA hB hC
  · exact ⟨fun _ => ⟨hA.1, hA.2, (range7_all_iff _).mp hB.1, hB.2, hC⟩, fun _ => rfl⟩
  · exact ⟨fun h => by simp at h, fun hR => absurd hR.2.2.2.2 hC⟩
  · exact ⟨fun h => by simp at h,
      fun hR => absurd ⟨(range7_all_iff _).mpr hR.2.2.1, hR.2.2.2.1⟩ hB⟩
  · exact ⟨fun h => by simp at h, fun hR => absurd ⟨hR.1, hR.2.1⟩ hA⟩

/-- An 81-byte IGES prefix (scenario 2 of the specification): junk in
columns 0..71, `S` in column 72, spaces then `1` in columns 73..79, a
newline at offset 80. -/
def exIgesInput : FormatProbeInput :=
  ⟨[], ⟨List.replicate 72 88 ++ [83] ++ List.replicate 6 32 ++ [49, 10], 81⟩, 4000⟩

/-- Witness for C5: the scenario-2 prefix is classified as IGES. -/
theorem probeFormat_IGES_characterization_witness :
    probeFormat_IGES exIgesInput = Format.IGES :=
  (probeFormat_IGES_characterization exIgesInput).mpr
    ⟨by decide, by decide, by intro i h1 h2; interval_cases i <;> decide,
     by decide, by decide⟩

/-- The common 80 declared bytes of the C6 counterexample pair. -/
def exC6Prefix : List Nat :=
  List.replicate 72 88 ++ [83] ++ List.replicate 6 32 ++ [49]

/-- The pair member whose backing buffer continues with a newline byte
beyond the declared 80-byte prefix. -/
def exC6A : FormatProbeInput :=
  ⟨[], ⟨exC6Prefix ++ [10], 80⟩, 4000⟩

/-- The pair member whose backing buffer ends exactly at the declared
prefix. -/
def exC6B : FormatProbeInput :=
  ⟨[], ⟨exC6Prefix, 80⟩, 4000⟩

/-- Counterexample to C6 as stated: two probe inputs with identical
declared sizes and identical bytes at every offset inside the declared
prefix are classified differently by `probeFormat_IGES`, because the
prober reads the byte at offset 80 — outside an exactly-80-byte prefix. -/
theorem prober_reads_beyond_prefix_counterexample :
    exC6A.contentsBegin.size = exC6B.contentsBegin.size ∧
    exC6A.hintFullSize = exC6B.hintFullSize ∧
    (∀ i < exC6A.contentsBegin.size,
      exC6A.contentsBegin.read i = exC6B.contentsBegin.read i) ∧
    probeFormat_IGES exC6A = Format.IGES ∧
    probeFormat_IGES exC6B = Format.Unknown := by
  decide

/-- C6 amended: every predefined prober is total on arbitrary probe
inputs — including prefixes shorter than its expected pattern — never
fails, and returns either its own format or Unknown; however the reads are
not confined to the declared prefix: `probeFormat_IGES` reads offset 80
even when the declared prefix is exactly 80 bytes, and the token matcher
can read the byte at the end position of a short prefix. -/
theorem predefined_probers_total (input : FormatProbeInput) :
    (probeFormat_STEP input = Format.STEP ∨ probeFormat_STEP input = Format.Unknown) ∧
    (probeFormat_IGES input = Format.IGES ∨ probeFormat_IGES input = Format.Unknown) ∧
    (probeFormat_OCCBREP input = Format.OCCBREP ∨
      probeFormat_OCCBREP input = Format.Unknown) ∧
    (probeFormat_STL input = Format.STL ∨ probeFormat_STL input = Format.Unknown) ∧
    (probeFormat_OBJ input = Format.OBJ ∨ probeFormat_OBJ input = Format.Unknown) := by
  refine ⟨?_, ?_, ?_, ?_, ?_⟩
  · simp only [probeFormat_STEP]
    split_ifs <;> simp
  · simp only [probeFormat_IGES]
    split_ifs <;> simp
  · simp only [probeFormat_OCCBREP]
    split_ifs <;> simp
  · simp only [probeFormat_STL]
    split_ifs <;> simp
  · simp only [probeFormat_OBJ]
    split_ifs <;> simp

theorem objRegexActual_never_matches (s : List Nat) (i : Nat) :
    RE.matchEnds objRegexActual s i = [] := by
  simp only [objRegexActual, RE.matchEnds]
  by_cases h : litAt s i [34] = true <;> simp [h]

/-- C4 (code bug evidence): `probeFormat_OBJ` returns Unknown on every
input, because the compiled pattern opens with a literal quote character
followed by the start-of-input anchor, which can never both match; yet the
intended pattern (the same expression without the stray quotes) does match
a prefix such as `v 1.0 `, which the claim says must yield Format_OBJ. -/
theorem probeFormat_OBJ_always_unknown :
    (∀ input, probeFormat_OBJ input = Format.Unknown) ∧
    regexSearch objRegexIntended (strBytes "v 1.0 ") = true ∧
    probeFormat_OBJ ⟨[], ⟨strBytes "v 1.0 ", 6⟩, 6⟩ = Format.Unknown := by
  have hnm : ∀ input, probeFormat_OBJ input = Format.Unknown := by
    intro input
    unfold probeFormat_OBJ
    have hs : regexSearch objRegexActual input.contentsBegin.toList = false := by
      simp [regexSearch, objRegexActual_never_matches]
    simp [hs]
  exact ⟨hnm, by decide, hnm _⟩

theorem runProbes_eq (ps : List (FormatProbeInput → Format)) (inp : FormatProbeInput) :
    runProbes ps inp =
      ((ps.map (fun p => p inp)).find? (fun f => f != Format.Unknown)).getD
        Format.Unknown := by
  induction ps with
  | nil => rfl
  | cons p ps ih =>
    by_cases h : p inp = Format.Unknown <;>
      simp [runProbes, List.find?_cons, h, ih]

theorem ciEq_bool (a b : List Nat) :
    (a.length == b.length && (a.zip b).all fun p => charIEqual p.1 p.2) =
      (a.map toLowerClassic == b.map toLowerClassic) := by
  induction a generalizing b with
  | nil => cases b <;> simp
  | cons x xs ih =>
    cases b with
    | nil => simp
    | cons y ys =>
      have := ih ys
      rw [Bool.eq_iff_iff] at this ⊢
      simp only [Bool.and_eq_true, beq_iff_eq, List.all_eq_true, List.length_cons]
        at this ⊢
      constructor
      · rintro ⟨h1, h2⟩
        have hx := h2 (x, y) (by simp [List.zip_cons_cons])
        simp only [charIEqual, beq_iff_eq] at hx
        simp only [List.map_cons, List.cons.injEq]
        refine ⟨hx, this.mp ⟨by omega, ?_⟩⟩
        intro p hp
        exact h2 p (by simp [List.zip_cons_cons, hp])
      · intro h
        simp only [List.map_cons, List.cons.injEq] at h
        obtain ⟨hxy, hrest⟩ := h
        obtain ⟨hlen, hall⟩ := this.mpr hrest
        refine ⟨by omega, ?_⟩
        intro p hp
        rw [List.zip_cons_cons, List.mem_cons] at hp
        rcases hp with hp | hp
        · subst hp
          simp [charIEqual, hxy]
        · exact hall p hp

theorem fnMatchFileSuffix_eq (sfx : Format → List (List Nat)) (suffix : List Nat) :
    fnMatchFileSuffix sfx suffix = fun fmt =>
      (sfx fmt).any (fun cand =>
        cand.map toLowerClassic == suffix.map toLowerClassic) := by
  funext fmt
  unfold fnMatchFileSuffix
  congr 1
  funext cand
  exact ciEq_bool cand suffix

theorem suffix_fallback_eq (rf wf : List Format) (sfx : Format → List (List Nat))
    (suffix : List Nat) :
    (match rf.find? (fnMatchFileSuffix sfx suffix) with
     | some f => f
     | none =>
       match wf.find? (fnMatchFileSuffix sfx suffix) with
       | some f => f
       | none => Format.Unknown) =
    (((rf ++ wf).find? (fun fmt =>
        (sfx fmt).any (fun cand =>
          cand.map toLowerClassic == suffix.map toLowerClassic))).getD
      Format.Unknown) := by
  rw [← fnMatchFileSuffix_eq sfx suffix, List.find?_append]
  cases h1 : rf.find? (fnMatchFileSuffix sfx suffix) <;>
    cases h2 : wf.find? (fnMatchFileSuffix sfx suffix) <;>
      simp [Option.or]

/-- C2: `probeFormat` runs the registered probers in registration order on
the probe input built from the 2048-byte zero-filled prefix and the exact
file size, answering the first non-Unknown result; when every prober says
Unknown, or the file did not open, it answers the first format — known
reader formats before known writer formats, each in registration order —
whose canonical suffix list contains the path extension (leading dot
stripped) under case-insensitive classic-locale comparison, and Unknown
when nothing matches. -/
theorem probeFormat_characterization (probes : List (FormatProbeInput → Format))
    (rf wf : List Format) (sfx : Format → List (List Nat))
    (path : List Nat) (env : ProbeFileEnv) :
    probeFormat probes rf wf sfx path env =
      (let probed :=
        match env.opened with
        | some (bytes, size) =>
          ((probes.map (fun p => p (mkProbeInput path bytes size))).find?
            (fun f => f != Format.Unknown)).getD Format.Unknown
        | none => Format.Unknown
      if probed ≠ Format.Unknown then probed
      else
        ((rf ++ wf).find? (fun fmt =>
          (sfx fmt).any (fun cand =>
            cand.map toLowerClassic ==
              (stripLeadingDot env.extension).map toLowerClassic))).getD
          Format.Unknown) := by
  rcases env with ⟨ext, op⟩
  cases op with
  | none =>
    simp only [probeFormat]
    rw [suffix_fallback_eq]
  | some pr =>
    rcases pr with ⟨bytes, size⟩
    simp only [probeFormat, runProbes_eq]
    split_ifs with h
    · rfl
    · rw [suffix_fallback_eq]

end Mayo
